import Mathlib

/-!
Verification development for two keras-cv components:

* `RetinaNetLabelEncoder` (keras_cv/models/object_detection/retina_net/
  retina_net_label_encoder.py): matches ground-truth boxes to anchor boxes
  and encodes per-anchor regression and classification training targets.
* the `RandomFlip` preprocessing layer, whose behaviour is fixed by its unit
  tests (keras_cv/layers/preprocessing/random_flip_test.py).

Tensors are embedded as lists of per-element values; machine floats are
embedded as exact rationals extended with NaN and the two infinities, since
the NaN-sanitization step of the label encoder observes NaN-ness of entries.
External collaborators of the encoder (IoU utility, box matcher, target
gather, box-delta encoding, format conversion) are not part of the two
source files; they are modelled from the spec, as marked on each definition.
-/

namespace KerasCV

/-- Floating-point value as produced by the numeric backend: NaN, one of the
two infinities, or a finite value, represented exactly by a rational. -/
inductive Val where
  | nan : Val
  | inf : Val
  | ninf : Val
  | num : ℚ → Val
deriving DecidableEq

/-- NaN test, the only observation the encoder's sanitization step makes on
a computed value (tf.math.is_nan). -/
def Val.isNan : Val → Bool
  | .nan => true
  | _ => false

/-- IEEE-style division: NaN propagates; x/0 is NaN for x = 0 and a signed
infinity otherwise; a finite value divided by an infinity is zero. -/
def Val.div : Val → Val → Val
  | .nan, _ => .nan
  | .inf, .nan => .nan
  | .ninf, .nan => .nan
  | .num _, .nan => .nan
  | .num a, .num b =>
      if b = 0 then (if a = 0 then .nan else if 0 < a then .inf else .ninf)
      else .num (a / b)
  | .inf, .num b => if 0 ≤ b then .inf else .ninf
  | .ninf, .num b => if 0 ≤ b then .ninf else .inf
  | .num _, .inf => .num 0
  | .num _, .ninf => .num 0
  | .inf, .inf => .nan
  | .inf, .ninf => .nan
  | .ninf, .inf => .nan
  | .ninf, .ninf => .nan

/-- IEEE-style logarithm (tf.math.log): NaN on negative arguments and on
NaN or -inf inputs, -inf at zero, +inf at +inf.  The finite values of the
logarithm on positive rationals are abstracted by the parameter `rlog`; no
claim in this file depends on them, only on NaN-ness. -/
def Val.vlog (rlog : ℚ → ℚ) : Val → Val
  | .nan => .nan
  | .inf => .inf
  | .ninf => .nan
  | .num q => if q < 0 then .nan else if q = 0 then .ninf else .num (rlog q)

/-- A box: 4 coordinates whose meaning depends on the bounding-box format in
force (for `xyxy`: x-min, y-min, x-max, y-max; for `xywh`: x, y, width,
height; for `center_yxhw`: center-y, center-x, height, width). -/
structure Box4 where
  c0 : ℚ
  c1 : ℚ
  c2 : ℚ
  c3 : ℚ
deriving DecidableEq

/-- The closed enumeration of bounding-box formats used by these claims. -/
inductive BoxFormat where
  | xyxy
  | xywh
  | center_yxhw
deriving DecidableEq

/-- Modelled from the spec: format conversion to the `xyxy` convention. -/
def toXyxy : BoxFormat → Box4 → Box4
  | .xyxy, b => b
  | .xywh, b => ⟨b.c0, b.c1, b.c0 + b.c2, b.c1 + b.c3⟩
  | .center_yxhw, b => ⟨b.c1 - b.c3 / 2, b.c0 - b.c2 / 2, b.c1 + b.c3 / 2, b.c0 + b.c2 / 2⟩

/-- Modelled from the spec: format conversion from the `xyxy` convention. -/
def fromXyxy : BoxFormat → Box4 → Box4
  | .xyxy, b => b
  | .xywh, b => ⟨b.c0, b.c1, b.c2 - b.c0, b.c3 - b.c1⟩
  | .center_yxhw, b => ⟨(b.c1 + b.c3) / 2, (b.c0 + b.c2) / 2, b.c3 - b.c1, b.c2 - b.c0⟩

/-- Modelled from the spec: the box format conversion utility
(keras_cv.bounding_box.convert_format), routed through `xyxy`. -/
def convert_format (source target : BoxFormat) (b : Box4) : Box4 :=
  fromXyxy target (toXyxy source b)

/-- Area of an `xyxy` box. -/
def boxArea (b : Box4) : ℚ := (b.c2 - b.c0) * (b.c3 - b.c1)

/-- Intersection area of two `xyxy` boxes (clamped at zero per axis). -/
def intersectionArea (a b : Box4) : ℚ :=
  max 0 (min a.c2 b.c2 - max a.c0 b.c0) * max 0 (min a.c3 b.c3 - max a.c1 b.c1)

/-- Modelled from the spec: pairwise IoU of two `xyxy` boxes,
intersection-area over union-area, 0 when either box has non-positive
area. -/
def iouXyxy (a b : Box4) : ℚ :=
  if boxArea a ≤ 0 ∨ boxArea b ≤ 0 then 0
  else intersectionArea a b / (boxArea a + boxArea b - intersectionArea a b)

/-- Modelled from the spec: the IoU utility
(keras_cv.bounding_box.compute_iou) for one pair of boxes, both operands
interpreted in the format named by its argument. -/
def compute_iou (fmt : BoxFormat) (a b : Box4) : ℚ :=
  iouXyxy (toXyxy fmt a) (toXyxy fmt b)

/-- Maximum of a list of rationals (0 for the empty list, which the matcher
never consults: the empty case is handled separately). -/
def rowMax : List ℚ → ℚ
  | [] => 0
  | q :: qs => qs.foldl max q

/-- Index of the first occurrence of the maximum of a row. -/
def rowArgmax (row : List ℚ) : Nat := row.indexOf (rowMax row)

/-- Modelled from the spec: the Box Matcher's quality value from the best
IoU of an anchor, with thresholds [negative_threshold, positive_threshold]
and match values [-1, -2, 1]: below the negative threshold is negative
(-1), at or above the positive threshold is positive (1), between the two
is ignore (-2). -/
def boxMatchValue (negT posT : ℚ) (q : ℚ) : Int :=
  if q < negT then -1 else if q < posT then -2 else 1

/-- Modelled from the spec: the Box Matcher's output for one anchor's IoU
row: the index of the best-matching ground-truth box and its quality value.
With no ground-truth columns the matcher returns index 0 and a negative
match. -/
def matchRow (negT posT : ℚ) (row : List ℚ) : Nat × Int :=
  if row = [] then (0, -1)
  else (rowArgmax row, boxMatchValue negT posT (rowMax row))

/-- Modelled from the spec: the target gather utility
(keras_cv.utils.target_gather): out-of-range indices gather a padding row
instead of crashing. -/
def targetGatherBox (gt : List Box4) (idx : Nat) : Box4 := gt.getD idx ⟨0, 0, 0, 0⟩

/-- Modelled from the spec: target gather for the per-box class column. -/
def targetGatherClass (cls : List ℚ) (idx : Nat) : ℚ := cls.getD idx 0

/-- The 4 box-regression deltas of one anchor. -/
structure Deltas where
  d0 : Val
  d1 : Val
  d2 : Val
  d3 : Val
deriving DecidableEq

/-- Modelled from the spec: `_encode_box_to_deltas` — anchors and matched
boxes are converted to the `center_yxhw` format, the center offsets are
scaled by the anchor size, the sizes enter as the logarithm of the ratio of
box size to anchor size, and everything is divided by the variance
vector. -/
def encode_box_to_deltas (rlog : ℚ → ℚ) (anchor_format box_format : BoxFormat)
    (variance : Box4) (anchor box : Box4) : Deltas :=
  let a := convert_format anchor_format .center_yxhw anchor
  let b := convert_format box_format .center_yxhw box
  { d0 := ((Val.num (b.c0 - a.c0)).div (.num a.c2)).div (.num variance.c0)
    d1 := ((Val.num (b.c1 - a.c1)).div (.num a.c3)).div (.num variance.c1)
    d2 := (((Val.num b.c2).div (.num a.c2)).vlog rlog).div (.num variance.c2)
    d3 := (((Val.num b.c3).div (.num a.c3)).vlog rlog).div (.num variance.c3) }

/-- The configuration of `RetinaNetLabelEncoder.__init__` (lines 53-81 of
retina_net_label_encoder.py), with the source's default values. -/
structure RetinaNetLabelEncoder where
  bounding_box_format : BoxFormat
  positive_threshold : ℚ := 1 / 2
  negative_threshold : ℚ := 2 / 5
  box_variance : Box4 := ⟨1 / 10, 1 / 10, 1 / 5, 1 / 5⟩
  background_class : ℚ := -1
  ignore_class : ℚ := -2
deriving DecidableEq

/-- One anchor's row of the IoU matrix as `_encode_sample` computes it
(lines 112-114): the source passes the string literal "xywh" as the format
argument of `compute_iou`, not `self.bounding_box_format`. -/
def iouRowUsed (enc : RetinaNetLabelEncoder) (gt : List Box4) (a : Box4) : List ℚ :=
  gt.map (fun g => compute_iou BoxFormat.xywh a g)

/-- The IoU matrix between anchors and ground-truth boxes exactly as the
code computes it (one row per anchor). -/
def iouMatrixUsed (enc : RetinaNetLabelEncoder) (anchors gt : List Box4) : List (List ℚ) :=
  anchors.map (iouRowUsed enc gt)

/-- Modelled from the spec: the IoU matrix as the spec words it — both
operands interpreted in the encoder's configured `bounding_box_format`
(which is also the format of the ground-truth input).  Compared against
`iouMatrixUsed` for the refinement claim about the IoU step. -/
def iouMatrixSpec (enc : RetinaNetLabelEncoder) (anchors gt : List Box4) : List (List ℚ) :=
  anchors.map (fun a => gt.map (fun g => compute_iou enc.bounding_box_format a g))

/-- The box matcher's result for one anchor (`self.box_matcher(iou_matrix)`
at line 115, with thresholds [negative_threshold, positive_threshold] and
match values [-1, -2, 1] from lines 75-79). -/
def anchorMatch (enc : RetinaNetLabelEncoder) (gt : List Box4) (a : Box4) : Nat × Int :=
  matchRow enc.negative_threshold enc.positive_threshold (iouRowUsed enc gt a)

/-- The classification target of one anchor before NaN sanitization (lines
116-139): the positive and ignore masks are cast to 0/1 floats, a first
where assigns the background class wherever the positive mask is not 1, a
second where assigns the ignore class wherever the ignore mask is 1. -/
def clsTargetPre (enc : RetinaNetLabelEncoder) (gtCls : List ℚ) (m : Nat × Int) : ℚ :=
  let positive_mask : ℚ := if m.2 = 1 then 1 else 0
  let ignore_mask : ℚ := if m.2 = -2 then 1 else 0
  let matched_gt_cls : ℚ := targetGatherClass gtCls m.1
  let cls1 : ℚ := if positive_mask ≠ 1 then enc.background_class else matched_gt_cls
  if ignore_mask = 1 then enc.ignore_class else cls1

/-- One anchor's concatenated 4+1 target row (line 140: box deltas then the
classification label). -/
structure Label5 where
  b0 : Val
  b1 : Val
  b2 : Val
  b3 : Val
  cls : Val
deriving DecidableEq

/-- Whether any of the 5 entries of a target row is NaN (line 149). -/
def Label5.hasNan (l : Label5) : Bool :=
  l.b0.isNan || l.b1.isNan || l.b2.isNan || l.b3.isNan || l.cls.isNan

/-- A target row whose every entry is the given class id (the broadcast of
`self.ignore_class` over a whole row at lines 147-153). -/
def ignoreRow (q : ℚ) : Label5 := ⟨.num q, .num q, .num q, .num q, .num q⟩

/-- One anchor's target row before NaN sanitization: matcher, gather,
box-delta encoding and the classification target, as `_encode_sample`
computes them (lines 112-140). -/
def labelPre (enc : RetinaNetLabelEncoder) (rlog : ℚ → ℚ)
    (gtB : List Box4) (gtC : List ℚ) (a : Box4) : Label5 :=
  let m := anchorMatch enc gtB a
  let matched_gt_box := targetGatherBox gtB m.1
  let d := encode_box_to_deltas rlog enc.bounding_box_format enc.bounding_box_format
    enc.box_variance a matched_gt_box
  ⟨d.d0, d.d1, d.d2, d.d3, .num (clsTargetPre enc gtC m)⟩

/-- The NaN sanitization of one target row (lines 147-153): a row with any
NaN entry is replaced, in all 5 positions, by the ignore class. -/
def sanitizeLabel (ignore_class : ℚ) (l : Label5) : Label5 :=
  if l.hasNan then ignoreRow ignore_class else l

/-- One anchor's final target row. -/
def encodeAnchor (enc : RetinaNetLabelEncoder) (rlog : ℚ → ℚ)
    (gtB : List Box4) (gtC : List ℚ) (a : Box4) : Label5 :=
  sanitizeLabel enc.ignore_class (labelPre enc rlog gtB gtC a)

/-- All anchors' target rows for one image of the batch. -/
def encodeImage (enc : RetinaNetLabelEncoder) (rlog : ℚ → ℚ)
    (anchors gtB : List Box4) (gtC : List ℚ) : List Label5 :=
  anchors.map (encodeAnchor enc rlog gtB gtC)

/-- One image's dense ground-truth labels (`box_labels["boxes"]` and
`box_labels["classes"]`, already densified with pad value -1). -/
structure GTLabels where
  boxes : List Box4
  classes : List ℚ
deriving DecidableEq

/-- The result dictionary of `_encode_sample` (line 155): per image, the
first 4 columns of each row are the box targets and the fifth column the
class target. -/
structure EncodedSample where
  boxes : List (List (Val × Val × Val × Val))
  classes : List (List Val)
deriving DecidableEq

/-- The target-producing part of `_encode_sample` over a batch (lines
110-155); the per-anchor and per-image computations are independent, so the
batched tensor operations are embedded as maps. -/
def encode_sample (enc : RetinaNetLabelEncoder) (rlog : ℚ → ℚ)
    (anchors : List Box4) (batch : List GTLabels) : EncodedSample where
  boxes := batch.map (fun g =>
    (encodeImage enc rlog anchors g.boxes g.classes).map (fun l => (l.b0, l.b1, l.b2, l.b3)))
  classes := batch.map (fun g =>
    (encodeImage enc rlog anchors g.boxes g.classes).map Label5.cls)

/-- The matched index of every anchor for one image (`matched_gt_idx`). -/
def matchedIdsOf (enc : RetinaNetLabelEncoder) (anchors gtB : List Box4) : List Nat :=
  anchors.map (fun a => (anchorMatch enc gtB a).1)

/-- The per-box coverage indicators recorded by the metric update (lines
157-173): `box_ids == matched_ids` reduced with any over the anchor
axis — entry j says whether some anchor's matched index equals j. -/
def matchesRecord (enc : RetinaNetLabelEncoder) (anchors : List Box4) (g : GTLabels) : List Bool :=
  (List.range g.boxes.length).map
    (fun j => (matchedIdsOf enc anchors g.boxes).any (fun idx => idx == j))

/-- The state of the diagnostic metric accumulator, as the append-only log
of recorded coverage indicators (one entry per `update_state` call). -/
abbrev MetricLog := List (List (List Bool))

/-- `_encode_sample` with its only side effect made explicit: the targets
are computed from the inputs, and the coverage record for this batch is
appended to the metric accumulator (lines 155-174). -/
def encode_sample_with_metric (enc : RetinaNetLabelEncoder) (rlog : ℚ → ℚ)
    (anchors : List Box4) (batch : List GTLabels) (st : MetricLog) :
    EncodedSample × MetricLog :=
  (encode_sample enc rlog anchors batch, st ++ [batch.map (matchesRecord enc anchors)])

/-- An image's spatial shape (height, width, channels).  The label encoder
reads nothing else of an image: `call` uses `tf.shape(images[0])` for
anchor generation, so images are embedded by their shapes. -/
abbrev ImageShape := Nat × Nat × Nat

/-- The anchor-generator collaborator: a bounding-box format and a map from
an image shape to per-level anchor box lists (concatenated in level
order). -/
structure AnchorGenerator where
  bounding_box_format : BoxFormat
  generate : ImageShape → List (List Box4)

/-- The `images` argument of `call`: either a ragged (variable-resolution)
batch or a dense batch, each image embedded by its shape. -/
inductive ImagesArg where
  | ragged : List ImageShape → ImagesArg
  | dense : List ImageShape → ImagesArg

/-- The error raised by `call` for ragged image input (lines 184-189). -/
def raggedErrorMsg : String :=
  "RetinaNetLabelEncoder does not support RaggedTensor inputs for the images argument."

/-- The error of indexing `images[0]` in an empty dense batch. -/
def emptyBatchErrorMsg : String := "images batch is empty"

/-- The anchor set `call` computes (lines 194-201): the generator is run on
the shape of the first image of the batch, the per-level lists are
concatenated, and the result is converted from the generator's format to
the encoder's configured format. -/
def anchorsUsed (enc : RetinaNetLabelEncoder) (gen : AnchorGenerator)
    (img0 : ImageShape) : List Box4 :=
  ((gen.generate img0).flatten).map
    (convert_format gen.bounding_box_format enc.bounding_box_format)

/-- `RetinaNetLabelEncoder.call` (lines 176-206): ragged image batches are
rejected first; otherwise anchors are generated from the first image's
shape and the batch is encoded against them. -/
def callEncoder (enc : RetinaNetLabelEncoder) (gen : AnchorGenerator) (rlog : ℚ → ℚ)
    (images : ImagesArg) (batch : List GTLabels) : Except String EncodedSample :=
  match images with
  | .ragged _ => .error raggedErrorMsg
  | .dense [] => .error emptyBatchErrorMsg
  | .dense (img0 :: _) => .ok (encode_sample enc rlog (anchorsUsed enc gen img0) batch)

/-- The flip modes of the `RandomFlip` layer. -/
inductive FlipMode where
  | horizontal
  | vertical
  | horizontal_and_vertical
deriving DecidableEq

/-- Whether the mode enables the horizontal (width) axis. -/
def FlipMode.hasHorizontal : FlipMode → Bool
  | .horizontal => true
  | .vertical => false
  | .horizontal_and_vertical => true

/-- Whether the mode enables the vertical (height) axis. -/
def FlipMode.hasVertical : FlipMode → Bool
  | .horizontal => false
  | .vertical => true
  | .horizontal_and_vertical => true

/-- One sample of the flip layer: an image (rows of pixel values), its
bounding boxes in the `xyxy` format (the format of the layer's box tests),
and a segmentation mask mirrored exactly like the image. -/
structure FlipSample where
  image : List (List ℚ)
  boxes : List Box4
  mask : List (List ℚ)
deriving DecidableEq

/-- Horizontal image flip: mirror the width axis (np.flip on the width
axis, as the tests' expected outputs are built). -/
def flipImageH (img : List (List ℚ)) : List (List ℚ) := img.map List.reverse

/-- Vertical image flip: mirror the height axis. -/
def flipImageV (img : List (List ℚ)) : List (List ℚ) := img.reverse

/-- Modelled from the spec: horizontal box flip for an `xyxy` box over an
image of width w — the x coordinates reflect (far corner to near corner),
the y coordinates are unchanged.  Matches the literal expectations of
test_augment_bounding_box_batched_input. -/
def flipBoxH (w : ℚ) (b : Box4) : Box4 := ⟨w - b.c2, b.c1, w - b.c0, b.c3⟩

/-- Modelled from the spec: vertical box flip over an image of height h. -/
def flipBoxV (h : ℚ) (b : Box4) : Box4 := ⟨b.c0, h - b.c3, b.c2, h - b.c1⟩

/-- Horizontal flip of a whole sample: image, boxes and mask together. -/
def flipSampleH (w : ℚ) (s : FlipSample) : FlipSample :=
  ⟨flipImageH s.image, s.boxes.map (flipBoxH w), flipImageH s.mask⟩

/-- Vertical flip of a whole sample. -/
def flipSampleV (h : ℚ) (s : FlipSample) : FlipSample :=
  ⟨flipImageV s.image, s.boxes.map (flipBoxV h), flipImageV s.mask⟩

/-- Modelled from the spec, amended by the recorded unit tests: the flip
decision for one drawn uniform value.  The axis is flipped when the draw
exceeds 1 - rate (so, above 0.5 at the default rate): every RandomFlip test
mocks draws of 0.6 and expects the flip applied. -/
def shouldFlip (rate draw : ℚ) : Bool := decide (1 - rate < draw)

/-- The flip decision exactly as the spec words it: flip when the drawn
value is strictly below the rate threshold (0.5 by default). -/
def specShouldFlip (rate draw : ℚ) : Bool := decide (draw < rate)

/-- One sample's random flip: a draw per enabled axis, horizontal consumed
first; each enabled axis is flipped when its draw passes the decision. -/
def randomFlipSample (mode : FlipMode) (rate w h : ℚ) (drawH drawV : ℚ)
    (s : FlipSample) : FlipSample :=
  let s1 := if mode.hasHorizontal && shouldFlip rate drawH then flipSampleH w s else s
  if mode.hasVertical && shouldFlip rate drawV then flipSampleV h s1 else s1

/-- The same per-sample transform under the spec's wording of the decision
rule (flip when the draw is below the rate), for comparison. -/
def specRandomFlipSample (mode : FlipMode) (rate w h : ℚ) (drawH drawV : ℚ)
    (s : FlipSample) : FlipSample :=
  let s1 := if mode.hasHorizontal && specShouldFlip rate drawH then flipSampleH w s else s
  if mode.hasVertical && specShouldFlip rate drawV then flipSampleV h s1 else s1

/-- The draws one sample consumes from the stream of mocked uniform values
(horizontal first when enabled, then vertical), and the remaining stream.
A disabled axis consumes nothing; its slot is filled with the unused dummy
value 1. -/
def axisDraws (mode : FlipMode) (draws : List ℚ) : ℚ × ℚ × List ℚ :=
  match mode with
  | .horizontal => (draws.headD 1, 1, draws.tail)
  | .vertical => (1, draws.headD 1, draws.tail)
  | .horizontal_and_vertical => (draws.headD 1, draws.tail.headD 1, draws.tail.tail)

/-- The layer over a batch: each sample independently consumes its own
draws from the stream (as the tests' side_effect lists are consumed). -/
def randomFlipBatch (mode : FlipMode) (rate w h : ℚ) :
    List ℚ → List FlipSample → List FlipSample
  | _, [] => []
  | draws, s :: ss =>
      let t := axisDraws mode draws
      randomFlipSample mode rate w h t.1 t.2.1 s ::
        randomFlipBatch mode rate w h t.2.2 ss

/-- The all -1 padding sentinel box. -/
def negOneBox : Box4 := ⟨-1, -1, -1, -1⟩

/-- A concrete stand-in for the finite logarithm values, used by witnesses
(these claims never depend on the finite values of the logarithm). -/
def rlog0 : ℚ → ℚ := fun _ => 0

/-- A concrete encoder configured with the `xywh` format (all other
arguments at their source defaults). -/
def encW : RetinaNetLabelEncoder := { bounding_box_format := .xywh }

/-- A concrete encoder configured with the `xyxy` format. -/
def encX : RetinaNetLabelEncoder := { bounding_box_format := .xyxy }

/-- A concrete one-anchor anchor set (x, y, width, height = 0, 0, 4, 4). -/
def anchorsW : List Box4 := [⟨0, 0, 4, 4⟩]

/-- A concrete one-image batch whose ground truth is all padding. -/
def batchW : List GTLabels := [⟨[negOneBox], [-1]⟩]

/-- A concrete flip sample: a 1-by-2 image, one box, a 1-by-2 mask. -/
def flipS0 : FlipSample := ⟨[[1, 2]], [⟨0, 0, 1, 1⟩], [[1, 2]]⟩

/-- Mapping a function that is constant on a list yields a replicate. -/
theorem map_eq_replicate {α β : Type} (l : List α) (f : α → β) (c : β)
    (h : ∀ x ∈ l, f x = c) : l.map f = List.replicate l.length c := by
  induction l with
  | nil => rfl
  | cons x xs ih =>
      simp only [List.map_cons, List.length_cons, List.replicate_succ]
      exact congrArg₂ (· :: ·) (h x (by simp))
        (ih (fun y hy => h y (List.mem_cons_of_mem x hy)))

/-- A left fold of max over a list is the seed or a member of the list. -/
theorem foldlMax_mem (l : List ℚ) : ∀ q : ℚ, l.foldl max q = q ∨ l.foldl max q ∈ l := by
  induction l with
  | nil => exact fun q => Or.inl rfl
  | cons x xs ih =>
      intro q
      rcases ih (max q x) with h | h
      · rcases max_choice q x with hm | hm
        · exact Or.inl (by rw [List.foldl_cons, h, hm])
        · exact Or.inr (by rw [List.foldl_cons, h, hm]; exact List.mem_cons_self x xs)
      · exact Or.inr (List.mem_cons_of_mem x (by rw [List.foldl_cons]; exact h))

/-- The maximum of a nonempty row is attained in the row. -/
theorem rowMax_mem {row : List ℚ} (h : row ≠ []) : rowMax row ∈ row := by
  cases row with
  | nil => exact absurd rfl h
  | cons q qs =>
      rcases foldlMax_mem qs q with h1 | h1
      · rw [rowMax, h1]; exact List.mem_cons_self q qs
      · rw [rowMax]; exact List.mem_cons_of_mem q h1

/-- The argmax of a nonempty row is in range. -/
theorem rowArgmax_lt {row : List ℚ} (h : row ≠ []) : rowArgmax row < row.length :=
  List.indexOf_lt_length.mpr (rowMax_mem h)

/-- getD on a list whose members are all equal returns that value at any
in-range index. -/
theorem getD_all_eq {α : Type} (l : List α) (x d : α) (h : ∀ b ∈ l, b = x) :
    ∀ i, i < l.length → l.getD i d = x := by
  induction l with
  | nil => intro i hi; simp at hi
  | cons y ys ih =>
      intro i hi
      cases i with
      | zero => simpa using h y (by simp)
      | succ j =>
          simp only [List.getD_cons_succ]
          exact ih (fun b hb => h b (List.mem_cons_of_mem y hb)) j
            (by simpa using Nat.lt_of_succ_lt_succ hi)

/-- Claim C1: for every anchor, the classification target built by the
encode step (lines 115-139, before NaN sanitization) is exactly one of
three mutually exclusive, exhaustive cases determined by the matcher's
quality value for that anchor: the gathered ground-truth class when the
quality is positive (value 1), the ignore sentinel when the quality is -2,
and the background sentinel otherwise; and the quality value is always one
of 1, -1, -2. -/
theorem claim_C1 (enc : RetinaNetLabelEncoder) (gtB : List Box4) (gtC : List ℚ)
    (a : Box4) :
    ((anchorMatch enc gtB a).2 = 1 ∨ (anchorMatch enc gtB a).2 = -1 ∨
      (anchorMatch enc gtB a).2 = -2) ∧
    clsTargetPre enc gtC (anchorMatch enc gtB a) =
      (if (anchorMatch enc gtB a).2 = -2 then enc.ignore_class
       else if (anchorMatch enc gtB a).2 = 1 then
         targetGatherClass gtC (anchorMatch enc gtB a).1
       else enc.background_class) := by
  constructor
  · unfold anchorMatch matchRow boxMatchValue
    split_ifs <;> simp
  · unfold clsTargetPre
    by_cases h2 : (anchorMatch enc gtB a).2 = -2
    · simp [h2]
    · by_cases h1 : (anchorMatch enc gtB a).2 = 1 <;> simp [h1, h2]

/-- Claim C2: for every anchor, the sanitization step replaces a target row
containing at least one NaN by the ignore sentinel in every entry, leaves a
NaN-free row unchanged, and the resulting row never contains a NaN. -/
theorem claim_C2 (enc : RetinaNetLabelEncoder) (rlog : ℚ → ℚ)
    (gtB : List Box4) (gtC : List ℚ) (a : Box4) :
    encodeAnchor enc rlog gtB gtC a =
      (if (labelPre enc rlog gtB gtC a).hasNan then ignoreRow enc.ignore_class
       else labelPre enc rlog gtB gtC a) ∧
    (encodeAnchor enc rlog gtB gtC a).hasNan = false := by
  refine ⟨rfl, ?_⟩
  unfold encodeAnchor sanitizeLabel
  cases h : (labelPre enc rlog gtB gtC a).hasNan
  · simpa using h
  · simp [ignoreRow, Label5.hasNan, Val.isNan]

/-- Claim C6: the per-image target count always equals the anchor count:
for every batch and every number of ground-truth boxes per image (0, 1, or
many, including all-padding), each image's list of 4-delta box-target rows
and each image's list of class targets both have exactly one entry per
anchor. -/
theorem claim_C6 (enc : RetinaNetLabelEncoder) (rlog : ℚ → ℚ)
    (anchors : List Box4) (batch : List GTLabels) :
    (encode_sample enc rlog anchors batch).boxes.map List.length =
      List.replicate batch.length anchors.length ∧
    (encode_sample enc rlog anchors batch).classes.map List.length =
      List.replicate batch.length anchors.length := by
  constructor
  · simp only [encode_sample, List.map_map]
    exact map_eq_replicate batch _ _
      (fun g _ => by simp [Function.comp, encodeImage])
  · simp only [encode_sample, List.map_map]
    exact map_eq_replicate batch _ _
      (fun g _ => by simp [Function.comp, encodeImage])

/-- Claim C7: a ragged (variable-resolution) image batch is rejected by
`call` with the descriptive error, independently of the labels and of the
anchor generator, and no targets are produced; a dense image batch never
produces that error, and a nonempty dense batch produces targets. -/
theorem claim_C7 (enc : RetinaNetLabelEncoder) (gen : AnchorGenerator) (rlog : ℚ → ℚ)
    (shapes : List ImageShape) (batch : List GTLabels)
    (imgs : List ImageShape) (img0 : ImageShape) (rest : List ImageShape) :
    callEncoder enc gen rlog (.ragged shapes) batch = .error raggedErrorMsg ∧
    callEncoder enc gen rlog (.dense imgs) batch ≠ .error raggedErrorMsg ∧
    callEncoder enc gen rlog (.dense (img0 :: rest)) batch =
      .ok (encode_sample enc rlog (anchorsUsed enc gen img0) batch) := by
  refine ⟨rfl, ?_, rfl⟩
  cases imgs with
  | nil =>
      intro hcontra
      simp only [callEncoder, Except.error.injEq] at hcontra
      exact absurd hcontra (by decide)
  | cons i is => simp [callEncoder]

/-- Claim C9: the horizontal flip is an involution on whole samples —
flipping the image, the boxes and the mask twice returns the original —
and in particular the horizontal-flip box transform composed with itself
is the identity on every box. -/
theorem claim_C9 (w : ℚ) (s : FlipSample) (b : Box4) :
    flipSampleH w (flipSampleH w s) = s ∧ flipBoxH w (flipBoxH w b) = b := by
  have hbox : ∀ c : Box4, flipBoxH w (flipBoxH w c) = c := by
    intro c; cases c; simp [flipBoxH]
  refine ⟨?_, hbox b⟩
  cases s with
  | mk image boxes mask =>
      have hcomp : flipBoxH w ∘ flipBoxH w = id := funext hbox
      simp [flipSampleH, flipImageH, List.map_map, hcomp, List.reverse_reverse]

/-- Claim C10: `call` generates its anchor set from the first image of the
batch only (`tf.shape(images[0])`): the whole result is the encoding of
the batch against `anchorsUsed` of the first image, and two dense batches
with the same first image yield identical results regardless of the rest
of the batch. -/
theorem claim_C10 (enc : RetinaNetLabelEncoder) (gen : AnchorGenerator) (rlog : ℚ → ℚ)
    (img0 : ImageShape) (rest rest2 : List ImageShape) (batch : List GTLabels) :
    callEncoder enc gen rlog (.dense (img0 :: rest)) batch =
      .ok (encode_sample enc rlog (anchorsUsed enc gen img0) batch) ∧
    callEncoder enc gen rlog (.dense (img0 :: rest)) batch =
      callEncoder enc gen rlog (.dense (img0 :: rest2)) batch :=
  ⟨rfl, rfl⟩

/-- Claim C8: the matched-anchor-coverage metric update is purely
diagnostic: the targets do not depend on the metric accumulator's state and
equal the pure encoding of the inputs, the update only appends this batch's
record to the accumulator, and the recorded indicator for ground-truth box
index j of a sample is true exactly when some anchor's matched index equals
j. -/
theorem claim_C8 (enc : RetinaNetLabelEncoder) (rlog : ℚ → ℚ)
    (anchors : List Box4) (batch : List GTLabels) (st st2 : MetricLog)
    (g : GTLabels) :
    (encode_sample_with_metric enc rlog anchors batch st).1 =
      (encode_sample_with_metric enc rlog anchors batch st2).1 ∧
    (encode_sample_with_metric enc rlog anchors batch st).1 =
      encode_sample enc rlog anchors batch ∧
    (encode_sample_with_metric enc rlog anchors batch st).2 =
      st ++ [batch.map (matchesRecord enc anchors)] ∧
    matchesRecord enc anchors g =
      (List.range g.boxes.length).map
        (fun j => decide (∃ a ∈ anchors, (anchorMatch enc g.boxes a).1 = j)) := by
  refine ⟨rfl, rfl, rfl, ?_⟩
  unfold matchesRecord matchedIdsOf
  apply List.map_congr_left
  intro j _
  apply Bool.eq_iff_iff.mpr
  constructor
  · intro hx
    rcases List.any_eq_true.mp hx with ⟨idx, hidx, hj⟩
    rcases List.mem_map.mp hidx with ⟨a, ha, rfl⟩
    exact decide_eq_true ⟨a, ha, by simpa using hj⟩
  · intro hx
    rcases of_decide_eq_true hx with ⟨a, ha, haj⟩
    exact List.any_eq_true.mpr ⟨_, List.mem_map.mpr ⟨a, ha, rfl⟩, by simpa using haj⟩

/-- Claim C5 (amended): for each sample the layer draws one uniform value
per enabled axis (horizontal first) and flips that axis exactly when the
drawn value exceeds 1 - rate, i.e. is strictly greater than 0.5 at the
default rate — not strictly less than 0.5 as the claim states; each batch
element consumes its own draws from the stream. -/
theorem claim_C5 (rate w h dh dv : ℚ) (s s1 : FlipSample) (draws : List ℚ)
    (samples : List FlipSample) :
    (randomFlipSample .horizontal rate w h dh dv s =
      if 1 - rate < dh then flipSampleH w s else s) ∧
    (randomFlipSample .vertical rate w h dh dv s =
      if 1 - rate < dv then flipSampleV h s else s) ∧
    (randomFlipSample .horizontal_and_vertical rate w h dh dv s =
      (if 1 - rate < dv then
        flipSampleV h (if 1 - rate < dh then flipSampleH w s else s)
       else (if 1 - rate < dh then flipSampleH w s else s))) ∧
    (randomFlipBatch .horizontal_and_vertical rate w h draws (s1 :: samples) =
      randomFlipSample .horizontal_and_vertical rate w h (draws.headD 1)
          (draws.tail.headD 1) s1 ::
        randomFlipBatch .horizontal_and_vertical rate w h draws.tail.tail samples) ∧
    shouldFlip (1 / 2) dh = decide ((1 : ℚ) / 2 < dh) := by
  refine ⟨?_, ?_, ?_, rfl, ?_⟩
  · by_cases hH : 1 - rate < dh <;>
      simp [randomFlipSample, FlipMode.hasHorizontal, FlipMode.hasVertical,
        shouldFlip, hH]
  · by_cases hV : 1 - rate < dv <;>
      simp [randomFlipSample, FlipMode.hasHorizontal, FlipMode.hasVertical,
        shouldFlip, hV]
  · by_cases hH : 1 - rate < dh <;> by_cases hV : 1 - rate < dv <;>
      simp [randomFlipSample, FlipMode.hasHorizontal, FlipMode.hasVertical,
        shouldFlip, hH, hV]
  · norm_num [shouldFlip]

/-- Claim C5 counterexample: at the drawn value 0.6 of the recorded unit
tests (test_horizontal_flip mocks draws of 0.6 and expects the flipped
batch), the spec's decision rule (flip when the draw is below 0.5) leaves
the sample unflipped, while the layer flips it; the two outcomes differ. -/
theorem claim_C5_counterexample :
    specRandomFlipSample .horizontal (1 / 2) 2 1 (3 / 5) 1 flipS0 = flipS0 ∧
    randomFlipSample .horizontal (1 / 2) 2 1 (3 / 5) 1 flipS0 =
      flipSampleH 2 flipS0 ∧
    flipSampleH 2 flipS0 ≠ flipS0 := by
  have hspec : specShouldFlip 2⁻¹ (3 / 5) = false := by
    norm_num [specShouldFlip]
  have hcode : shouldFlip 2⁻¹ (3 / 5) = true := by
    norm_num [shouldFlip]
  refine ⟨?_, ?_, ?_⟩
  · simp [specRandomFlipSample, FlipMode.hasHorizontal, FlipMode.hasVertical, hspec]
  · simp [randomFlipSample, FlipMode.hasHorizontal, FlipMode.hasVertical, hcode]
  · intro hcontra
    have h0 := congrArg (fun t => t.image) hcontra
    norm_num [flipSampleH, flipImageH, flipS0] at h0

/-- Claim C4 counterexample: for an encoder configured with the xyxy
format, the IoU matrix that `_encode_sample` computes (the source passes
the literal format "xywh" to `compute_iou` at line 113) differs from the
IoU matrix with both operands interpreted in the configured format, already
on a single anchor and a single ground-truth box. -/
theorem claim_C4_counterexample :
    iouMatrixUsed encX [⟨0, 0, 2, 2⟩] [⟨1, 1, 2, 2⟩] ≠
      iouMatrixSpec encX [⟨0, 0, 2, 2⟩] [⟨1, 1, 2, 2⟩] := by
  have hused : compute_iou BoxFormat.xywh ⟨0, 0, 2, 2⟩ ⟨1, 1, 2, 2⟩ = 1 / 7 := by
    norm_num [compute_iou, iouXyxy, toXyxy, boxArea, intersectionArea, min_def,
      max_def]
  have hspec : compute_iou BoxFormat.xyxy ⟨0, 0, 2, 2⟩ ⟨1, 1, 2, 2⟩ = 1 / 4 := by
    norm_num [compute_iou, iouXyxy, toXyxy, boxArea, intersectionArea, min_def,
      max_def]
  intro hcontra
  simp only [iouMatrixUsed, iouMatrixSpec, iouRowUsed, encX, List.map_cons,
    List.map_nil] at hcontra
  rw [hused, hspec] at hcontra
  norm_num at hcontra

/-- Claim C4 (amended): the IoU matrix is computed with both operands
interpreted in one consistent but fixed format, the "xywh" convention,
regardless of the configured bounding_box_format (so changing the
configured format does not change the matrix); it coincides with the
matrix interpreted in the configured format exactly in the intended case
bounding_box_format = xywh. -/
theorem claim_C4 (enc : RetinaNetLabelEncoder) (anchors gt : List Box4)
    (f : BoxFormat) (hfmt : enc.bounding_box_format = .xywh) :
    iouMatrixUsed enc anchors gt = iouMatrixSpec enc anchors gt ∧
    iouMatrixUsed { enc with bounding_box_format := f } anchors gt =
      iouMatrixUsed enc anchors gt := by
  constructor
  · unfold iouMatrixUsed iouMatrixSpec iouRowUsed
    rw [hfmt]
  · rfl

/-- The height component of the box deltas against the all -1 sentinel box
in the xywh format is NaN: the sentinel's height converts to -1 in the
center format, and the logarithm of the negative ratio of -1 to a positive
anchor height is NaN. -/
theorem deltas_d2_nan (rlog : ℚ → ℚ) (variance a : Box4) (hh : 0 < a.c3) :
    (encode_box_to_deltas rlog .xywh .xywh variance a negOneBox).d2 = Val.nan := by
  have hne : a.c3 ≠ 0 := ne_of_gt hh
  have hneg : (-1 : ℚ) / a.c3 < 0 := div_neg_of_neg_of_pos (by norm_num) hh
  norm_num [encode_box_to_deltas, convert_format, toXyxy, fromXyxy, negOneBox,
    Val.div, Val.vlog, add_sub_cancel_left, hne, hneg]

/-- Against all-padding ground truth, every anchor's final target row is
the full ignore row: the gathered box is the sentinel, its height delta is
NaN, and the sanitization step replaces the whole row. -/
theorem encodeAnchor_allPadding (enc : RetinaNetLabelEncoder) (rlog : ℚ → ℚ)
    (gtB : List Box4) (gtC : List ℚ) (a : Box4)
    (hfmt : enc.bounding_box_format = .xywh) (hh : 0 < a.c3)
    (hne : gtB ≠ []) (hpad : ∀ b ∈ gtB, b = negOneBox) :
    encodeAnchor enc rlog gtB gtC a = ignoreRow enc.ignore_class := by
  have hrowne : iouRowUsed enc gtB a ≠ [] := by
    simpa [iouRowUsed] using hne
  have hidx : (anchorMatch enc gtB a).1 < gtB.length := by
    have h1 := rowArgmax_lt hrowne
    have h2 : (iouRowUsed enc gtB a).length = gtB.length := by
      simp [iouRowUsed]
    unfold anchorMatch matchRow
    rw [if_neg hrowne]
    simpa [h2] using h1
  have hgather : targetGatherBox gtB (anchorMatch enc gtB a).1 = negOneBox :=
    getD_all_eq gtB negOneBox _ hpad _ hidx
  have hnan : (labelPre enc rlog gtB gtC a).hasNan = true := by
    simp [labelPre, Label5.hasNan, hgather, hfmt,
      deltas_d2_nan rlog enc.box_variance a hh, Val.isNan]
  unfold encodeAnchor sanitizeLabel
  rw [hnan]
  simp

/-- Claim C3 counterexample: the claim fails for an encoder configured
with the xyxy format.  With all-padding ground truth, the sentinel box
converts to the center format with height and width 0, whose logarithm is
-inf rather than NaN, so sanitization never fires; the matcher value is
negative, and every anchor's classification target is the background
sentinel, not the ignore sentinel. -/
theorem claim_C3_counterexample :
    (encode_sample encX rlog0 anchorsW batchW).classes =
      [[Val.num encX.background_class]] ∧
    (encode_sample encX rlog0 anchorsW batchW).classes ≠
      batchW.map (fun _ =>
        List.replicate anchorsW.length (Val.num encX.ignore_class)) := by
  have h1 : iouRowUsed encX [negOneBox] (⟨0, 0, 4, 4⟩ : Box4) = [0] := by
    norm_num [iouRowUsed, compute_iou, toXyxy, negOneBox, iouXyxy, boxArea,
      intersectionArea, min_def, max_def]
  have h2 : anchorMatch encX [negOneBox] (⟨0, 0, 4, 4⟩ : Box4) = (0, -1) := by
    unfold anchorMatch
    rw [h1]
    norm_num [matchRow, rowMax, rowArgmax, boxMatchValue, encX]
  have hlabel : labelPre encX rlog0 [negOneBox] [-1] (⟨0, 0, 4, 4⟩ : Box4) =
      ⟨Val.num (-15 / 2), Val.num (-15 / 2), Val.ninf, Val.ninf,
        Val.num (-1)⟩ := by
    simp only [labelPre, h2]
    norm_num [targetGatherBox, targetGatherClass, clsTargetPre, encX,
      encode_box_to_deltas, convert_format, toXyxy, fromXyxy, negOneBox,
      Val.div, Val.vlog]
  have hcls : (encode_sample encX rlog0 anchorsW batchW).classes =
      [[Val.num (-1)]] := by
    simp [encode_sample, anchorsW, batchW, encodeImage, encodeAnchor,
      sanitizeLabel, hlabel, Label5.hasNan, Val.isNan]
  constructor
  · rw [hcls]
    norm_num [encX]
  · rw [hcls]
    intro hcontra
    norm_num [batchW, anchorsW, encX, List.replicate] at hcontra

/-- Claim C3 (amended): when every ground-truth box of every image of the
batch is the all -1 padding sentinel (and every ground-truth class is -1),
an encoder configured with the xywh format — the format `_encode_sample`
documents for its boxes, with anchors of positive size — returns the
ignore sentinel as every anchor's classification target, and every entry
of the box and class targets is the finite ignore sentinel, so none is
NaN.  (For an xyxy-configured encoder the conclusion fails, see the
counterexample: the sentinel box degenerates to zero size, whose log is
-inf, not NaN.) -/
theorem claim_C3 (enc : RetinaNetLabelEncoder) (rlog : ℚ → ℚ)
    (anchors : List Box4) (batch : List GTLabels)
    (hfmt : enc.bounding_box_format = .xywh)
    (hanch : ∀ a ∈ anchors, 0 < a.c2 ∧ 0 < a.c3)
    (hbatch : ∀ g ∈ batch, g.boxes ≠ [] ∧ (∀ b ∈ g.boxes, b = negOneBox) ∧
      ∀ c ∈ g.classes, c = -1) :
    (encode_sample enc rlog anchors batch).classes =
      batch.map (fun _ =>
        List.replicate anchors.length (Val.num enc.ignore_class)) ∧
    (encode_sample enc rlog anchors batch).boxes =
      batch.map (fun _ => List.replicate anchors.length
        (Val.num enc.ignore_class, Val.num enc.ignore_class,
          Val.num enc.ignore_class, Val.num enc.ignore_class)) := by
  have himg : ∀ g ∈ batch, encodeImage enc rlog anchors g.boxes g.classes =
      List.replicate anchors.length (ignoreRow enc.ignore_class) := by
    intro g hg
    apply map_eq_replicate
    intro a ha
    exact encodeAnchor_allPadding enc rlog g.boxes g.classes a hfmt
      (hanch a ha).2 (hbatch g hg).1 (hbatch g hg).2.1
  constructor
  · simp only [encode_sample]
    apply List.map_congr_left
    intro g hg
    rw [himg g hg, List.map_replicate]
    rfl
  · simp only [encode_sample]
    apply List.map_congr_left
    intro g hg
    rw [himg g hg, List.map_replicate]
    rfl

/-- Witness for claim C3 at a concrete xywh-configured encoder, a concrete
positive-size anchor and a concrete all-padding one-image batch. -/
theorem claim_C3_witness :
    (encode_sample encW rlog0 anchorsW batchW).classes =
      batchW.map (fun _ =>
        List.replicate anchorsW.length (Val.num encW.ignore_class)) ∧
    (encode_sample encW rlog0 anchorsW batchW).boxes =
      batchW.map (fun _ => List.replicate anchorsW.length
        (Val.num encW.ignore_class, Val.num encW.ignore_class,
          Val.num encW.ignore_class, Val.num encW.ignore_class)) :=
  claim_C3 encW rlog0 anchorsW batchW rfl (by decide) (by decide)

/-- Witness for claim C4's amended theorem at a concrete xywh-configured
encoder, anchor and ground-truth box. -/
theorem claim_C4_witness :
    iouMatrixUsed encW [⟨0, 0, 2, 2⟩] [⟨1, 1, 2, 2⟩] =
      iouMatrixSpec encW [⟨0, 0, 2, 2⟩] [⟨1, 1, 2, 2⟩] ∧
    iouMatrixUsed { encW with bounding_box_format := BoxFormat.xyxy }
        [⟨0, 0, 2, 2⟩] [⟨1, 1, 2, 2⟩] =
      iouMatrixUsed encW [⟨0, 0, 2, 2⟩] [⟨1, 1, 2, 2⟩] :=
  claim_C4 encW [⟨0, 0, 2, 2⟩] [⟨1, 1, 2, 2⟩] BoxFormat.xyxy rfl

end KerasCV
